import Mathlib

/-!
Shallow embedding of the go-fileserver HTTP handlers (src/go-fileserver/main.go),
specialised to a Linux host: the path separator is the forward slash, so
filepath.FromSlash and filepath.ToSlash are the identity and are elided.
Go standard-library path functions (filepath.Ext, Base, Dir, Join, Clean, Abs)
are embedded over lists of characters, following their documented Unix
behaviour.  strings.ToLower is embedded for the ASCII range (the only range the
handlers compare against).  mime.TypeByExtension is embedded as its built-in
extension table (no system mime files), which is the portion the handlers rely
on.  Filesystem and multipart effects are made explicit: handlers take the
size and bytes of the file, or an explicit event stream and a filesystem
state, and failures of the OS calls are injected through an oracle.
-/

/-- Split a character list on a separator, Go strings.Split style:
empty input yields one empty group, adjacent separators yield empty groups. -/
def splitOnChar (sep : Char) (cs : List Char) : List (List Char) :=
  cs.foldr
    (fun c acc =>
      if c = sep then [] :: acc
      else
        match acc with
        | [] => [[c]]
        | g :: gs => (c :: g) :: gs)
    [[]]

/-- Join character-list components with a forward slash between them. -/
def joinSlash : List (List Char) → List Char
  | [] => []
  | [p] => p
  | p :: ps => p ++ '/' :: joinSlash ps

/-- The component stack of Go filepath.Clean: skip empty and dot components,
pop on dot-dot (or keep it for relative paths), push everything else.
The stack is kept in reverse order. -/
def cleanStack (abs : Bool) : List (List Char) → List (List Char) → List (List Char)
  | [], st => st
  | c :: rest, st =>
    if c = [] ∨ c = ['.'] then cleanStack abs rest st
    else if c = ['.', '.'] then
      match st with
      | [] => cleanStack abs rest (if abs then [] else [['.', '.']])
      | top :: stRest =>
        if top = ['.', '.'] then cleanStack abs rest (c :: top :: stRest)
        else cleanStack abs rest stRest
    else cleanStack abs rest (c :: st)

/-- Go filepath.Clean on a Unix host. -/
def filepathClean (s : String) : String :=
  let cs := s.data
  if cs = [] then "."
  else
    let abs := cs.head? = some '/'
    let parts := (cleanStack abs (splitOnChar '/' cs) []).reverse
    if abs then String.mk ('/' :: joinSlash parts)
    else if parts = [] then "." else String.mk (joinSlash parts)

/-- Go filepath.Join on two elements (Unix): drop empty elements, join with a
slash, then Clean; all-empty input yields the empty string. -/
def filepathJoin (a b : String) : String :=
  if a = "" ∧ b = "" then ""
  else if a = "" then filepathClean b
  else if b = "" then filepathClean a
  else filepathClean (a ++ "/" ++ b)

/-- Go filepath.Base on a Unix host. -/
def filepathBase (s : String) : String :=
  if s = "" then "."
  else
    let r := s.data.reverse.dropWhile (fun c => c = '/')
    if r = [] then "/"
    else String.mk ((r.takeWhile (fun c => c ≠ '/')).reverse)

/-- Go filepath.Ext on a Unix host: the suffix of the final path element
starting at its final dot, empty when there is no dot. -/
def filepathExt (s : String) : String :=
  String.mk
    (s.data.foldl
      (fun acc c =>
        if c = '/' then []
        else if c = '.' then ['.']
        else if acc = [] then [] else acc ++ [c])
      [])

/-- Go filepath.Dir on a Unix host: everything up to the final slash, Cleaned. -/
def filepathDir (s : String) : String :=
  filepathClean (String.mk (s.data.reverse.dropWhile (fun c => c ≠ '/')).reverse)

/-- Go filepath.Abs on a Unix host, with the working directory made explicit
(the handler ignores the error return). -/
def filepathAbs (cwd : String) (s : String) : String :=
  if s.data.head? = some '/' then filepathClean s else filepathJoin cwd s

/-- Go strings.ToLower restricted to ASCII (the handlers only compare against
ASCII extension literals). -/
def lowerString (s : String) : String :=
  String.mk (s.data.map Char.toLower)

/-- Go strings.HasPrefix applied to the literal prefix "image/". -/
def startsWithImage (s : String) : Bool :=
  match s.data with
  | 'i' :: 'm' :: 'a' :: 'g' :: 'e' :: '/' :: _ => true
  | _ => false

/-- The built-in extension table of the Go mime package (builtinTypesLower);
the embedding models mime.TypeByExtension without system mime files. -/
def builtinMimeTable : List (String × String) :=
  [(".avif", "image/avif"),
   (".css", "text/css; charset=utf-8"),
   (".gif", "image/gif"),
   (".htm", "text/html; charset=utf-8"),
   (".html", "text/html; charset=utf-8"),
   (".jpeg", "image/jpeg"),
   (".jpg", "image/jpeg"),
   (".js", "text/javascript; charset=utf-8"),
   (".json", "application/json"),
   (".mjs", "text/javascript; charset=utf-8"),
   (".pdf", "application/pdf"),
   (".png", "image/png"),
   (".svg", "image/svg+xml"),
   (".wasm", "application/wasm"),
   (".webp", "image/webp"),
   (".xml", "text/xml; charset=utf-8")]

/-- Go mime.TypeByExtension over the built-in table: an exact-case miss falls
back to the lowercased extension, and all built-in keys are lowercase, so the
lookup is on the lowercased extension; the empty string signals a miss. -/
def mimeTypeByExtension (ext : String) : String :=
  match builtinMimeTable.lookup (lowerString ext) with
  | some t => t
  | none => ""

/-- extToLang from main.go: the closed extension-to-language table for the
highlighting hint. -/
def extToLang (ext : String) : String :=
  if ext = ".go" then "go"
  else if ext = ".js" then "javascript"
  else if ext = ".py" then "python"
  else if ext = ".java" then "java"
  else if ext = ".html" then "html"
  else if ext = ".css" then "css"
  else if ext = ".json" then "json"
  else if ext = ".md" then "markdown"
  else ""

/-- One byte of the binary sniff in handleFileView: a zero byte, or a byte
below 0x09, or a byte strictly between 0x0D and 0x20, marks the file binary. -/
def isBinaryByte (b : Nat) : Bool :=
  b == 0 || b < 0x09 || (0x0D < b && b < 0x20)

/-- The fixed truncation notice appended to over-limit text files. -/
def truncationMarker : String :=
  "\n\n... [File truncated because it is too large] ..."

/-- The truncation notice as bytes (it is pure ASCII). -/
def truncBytes : List Nat :=
  truncationMarker.data.map Char.toNat

/-- The fixed oversize message of the 50 MiB guard. -/
def oversizeMessage : String :=
  "File is too large to view (over 50MB). Please download it."

/-- The JSON payload of the /api/file endpoint.  The type field of the Go
response map is the constructor; byte-valued content (markdown, image, text)
is kept as bytes, fixed strings stay strings. -/
inductive ViewResult where
  | httpError (status : Nat) (msg : String)
  | errorView (content : String)
  | pdfView (content : String)
  | markdownView (content : List Nat)
  | imageView (mime : String) (data : List Nat)
  | binaryView (content : String)
  | textView (content : List Nat) (language : String)
deriving DecidableEq, Repr

/-- The type field of the encoded /api/file JSON response. -/
def viewType : ViewResult → String
  | ViewResult.httpError _ _ => ""
  | ViewResult.errorView _ => "error"
  | ViewResult.pdfView _ => "pdf"
  | ViewResult.markdownView _ => "markdown"
  | ViewResult.imageView _ _ => "image"
  | ViewResult.binaryView _ => "binary"
  | ViewResult.textView _ _ => "text"

/-- The language field of the encoded /api/file JSON response, when present. -/
def viewLanguage : ViewResult → Option String
  | ViewResult.binaryView _ => some ""
  | ViewResult.textView _ lang => some lang
  | _ => none

/-- The body of handleFileView after the open/stat/oversize steps: the binary
sniff over the first 800 bytes, the lowercased-extension dispatch (pdf,
markdown), the image/binary split, and the 1 MiB-limited text read with the
truncation marker keyed on the stat size. -/
def classifyContent (path : String) (size : Nat) (data : List Nat) : ViewResult :=
  let isBin := (data.take 800).any isBinaryByte
  let ext := lowerString (filepathExt path)
  if ext = ".pdf" then
    ViewResult.pdfView ("/api/raw?path=" ++ path)
  else if ext = ".md" ∨ ext = ".markdown" then
    ViewResult.markdownView data
  else if isBin then
    if startsWithImage (mimeTypeByExtension ext) then
      ViewResult.imageView (mimeTypeByExtension ext) data
    else
      ViewResult.binaryView "[Binary file will not be displayed]"
  else
    ViewResult.textView
      (data.take (1024 * 1024) ++ (if size > 1024 * 1024 then truncBytes else []))
      (extToLang ext)

/-- handleFileView from main.go for an existing regular file: the missing-path
guard, then the 50 MiB oversize guard on the stat size (taken before any read
of the body), then content classification.  size is the stat size, data the
byte content on disk. -/
def handleFileView (path : String) (size : Nat) (data : List Nat) : ViewResult :=
  if path = "" then ViewResult.httpError 400 "Missing path"
  else if size > 50 * 1024 * 1024 then ViewResult.errorView oversizeMessage
  else classifyContent path size data

/-- One entry of the /api/tree JSON response: name, the type string
("folder" or "file"), and the forward-slash path. -/
structure TreeEntry where
  name : String
  type : String
  path : String
deriving DecidableEq, Repr

/-- handleTree from main.go.  cwd is the process working directory consumed by
filepath.Abs; readDirFn is os.ReadDir, returning either an error message or the
entries as (name, isDir) pairs in enumeration order. -/
def handleTree (cwd : String) (folderList : List String)
    (readDirFn : String → Except String (List (String × Bool)))
    (path : String) : Except (Nat × String) (List TreeEntry) :=
  if path = "" ∨ path = "." ∨ path = "/" then
    Except.ok (folderList.map (fun f =>
      { name := filepathBase f, type := "folder", path := filepathAbs cwd f }))
  else
    match readDirFn path with
    | Except.error e => Except.error (400, e)
    | Except.ok entries =>
        Except.ok (entries.map (fun en =>
          { name := en.1
            type := if en.2 then "folder" else "file"
            path := filepathJoin path en.1 }))

/-- The /api/download response: the missing-parameter error, or delegation to
http.ServeFile with the two headers already set. -/
inductive DownloadResult where
  | httpError (status : Nat) (msg : String)
  | serve (contentDisposition : String) (contentType : String) (nativePath : String)
deriving DecidableEq, Repr

/-- handleDownload from main.go: basename for the attachment filename, MIME
type from the extension table with the octet-stream default, then ServeFile. -/
def handleDownload (path : String) : DownloadResult :=
  if path = "" then DownloadResult.httpError 400 "Missing path"
  else
    let fname := filepathBase path
    let mt := mimeTypeByExtension (filepathExt fname)
    DownloadResult.serve
      ("attachment; filename=" ++ fname)
      (if mt = "" then "application/octet-stream" else mt)
      path

/-- The /api/raw response: the missing-parameter error, or delegation to
http.ServeFile with default headers. -/
inductive RawResult where
  | httpError (status : Nat) (msg : String)
  | serve (nativePath : String)
deriving DecidableEq, Repr

/-- handleRawFile from main.go. -/
def handleRawFile (path : String) : RawResult :=
  if path = "" then RawResult.httpError 400 "Missing path"
  else RawResult.serve path

/-- Shallow filesystem state for the upload handler: a write log of files
(newest binding first, so lookup sees the latest write) and the set of
directories created so far. -/
structure FS where
  files : List (String × List Nat)
  dirs : List String
deriving DecidableEq, Repr

/-- The empty filesystem. -/
def fsEmpty : FS := { files := [], dirs := [] }

/-- os.Create / io.Copy result as state: record the bytes of the file. -/
def fsWrite (fs : FS) (path : String) (content : List Nat) : FS :=
  { fs with files := (path, content) :: fs.files }

/-- Content of a file, newest write first. -/
def fsRead (fs : FS) (path : String) : Option (List Nat) :=
  fs.files.lookup path

/-- The prefix chain of directories denoted by a cleaned path: for
"/data/a/sub" the list "/data", "/data/a", "/data/a/sub". -/
def dirChain (dir : String) : List String :=
  let cs := dir.data
  let abs := cs.head? = some '/'
  let comps := (splitOnChar '/' cs).filter (fun c => c ≠ [])
  (List.range comps.length).map (fun i =>
    let pre := joinSlash (comps.take (i + 1))
    String.mk (if abs then '/' :: pre else pre))

/-- os.MkdirAll as state: the directory and all its ancestors now exist. -/
def mkdirAll (fs : FS) (dir : String) : FS :=
  { fs with dirs := dirChain dir ++ fs.dirs }

/-- Failure injection for the OS calls of the upload loop: for a given target
path, does os.MkdirAll / os.Create / io.Copy fail, and with what message. -/
structure FsOracle where
  mkdirErr : String → Option String
  createErr : String → Option String
  copyErr : String → Option String

/-- The oracle on which every OS call succeeds. -/
def noErrOracle : FsOracle :=
  { mkdirErr := fun _ => none, createErr := fun _ => none, copyErr := fun _ => none }

/-- One event of the multipart stream as seen by reader.NextPart: either a
decoded part (form name, declared filename, bytes) or a stream error; the end
of the event list is io.EOF. -/
inductive PartEvent where
  | filePart (formName : String) (fileName : String) (content : List Nat)
  | streamError (msg : String)
deriving DecidableEq, Repr

/-- The JSON body of the /api/upload response together with the HTTP status it
is written with (json.NewEncoder.Encode without WriteHeader writes 200). -/
structure UploadResp where
  status : Nat
  success : Bool
  error : Option String
deriving DecidableEq, Repr

/-- The effective output filename of one upload part: the relativePath query
value when nonempty, else the declared filename of the part. -/
def effectiveName (rel fname : String) : String :=
  if rel ≠ "" then rel else fname

/-- The part loop of handleUpload: process stream events in order; a part is a
file upload when its form name is "files" and it declares a filename; the
relativePath query value, when nonempty, overrides the declared filename; the
output path is folder joined with the effective filename; MkdirAll on its
directory, Create (the file exists empty from here on), then Copy; the first
failure returns success=false with that error and stops; end of stream returns
success=true. -/
def processParts (folder rel : String) (o : FsOracle) :
    List PartEvent → FS → UploadResp × FS
  | [], fs => ({ status := 200, success := true, error := none }, fs)
  | PartEvent.streamError m :: _, fs =>
      ({ status := 200, success := false, error := some m }, fs)
  | PartEvent.filePart fn fname c :: rest, fs =>
      if fn = "files" ∧ fname ≠ "" then
        match o.mkdirErr (filepathDir (filepathJoin folder (effectiveName rel fname))) with
        | some e => ({ status := 200, success := false, error := some e }, fs)
        | none =>
          let fs1 := mkdirAll fs (filepathDir (filepathJoin folder (effectiveName rel fname)))
          match o.createErr (filepathJoin folder (effectiveName rel fname)) with
          | some e => ({ status := 200, success := false, error := some e }, fs1)
          | none =>
            let fs2 := fsWrite fs1 (filepathJoin folder (effectiveName rel fname)) []
            match o.copyErr (filepathJoin folder (effectiveName rel fname)) with
            | some e => ({ status := 200, success := false, error := some e }, fs2)
            | none =>
                processParts folder rel o rest
                  (fsWrite fs2 (filepathJoin folder (effectiveName rel fname)) c)
      else processParts folder rel o rest fs

/-- handleUpload from main.go for a POST request: the missing-folder guard,
the multipart guard (stream = none models r.MultipartReader failing), then the
part loop.  rel is the relativePath query value ("" when absent). -/
def handleUpload (folder rel : String) (o : FsOracle)
    (stream : Option (List PartEvent)) (fs : FS) : UploadResp × FS :=
  if folder = "" then
    ({ status := 200, success := false, error := some "Missing folder param" }, fs)
  else
    match stream with
    | none => ({ status := 200, success := false, error := some "Not a multipart request" }, fs)
    | some evs => processParts folder rel o evs fs

/-- Modelled from the spec (section 4.4): the failure-free runs of the upload
part loop.  cleanRunSpec returns the final filesystem when every stream event
decodes and every OS call succeeds, and none when any of them fails; it is the
specification side of the abort-on-first-failure claim. -/
def cleanRunSpec (folder rel : String) (o : FsOracle) :
    List PartEvent → FS → Option FS
  | [], fs => some fs
  | PartEvent.streamError _ :: _, _ => none
  | PartEvent.filePart fn fname c :: rest, fs =>
      if fn = "files" ∧ fname ≠ "" then
        if (o.mkdirErr (filepathDir (filepathJoin folder (effectiveName rel fname)))).isNone
            ∧ (o.createErr (filepathJoin folder (effectiveName rel fname))).isNone
            ∧ (o.copyErr (filepathJoin folder (effectiveName rel fname))).isNone then
          cleanRunSpec folder rel o rest
            (fsWrite
              (fsWrite
                (mkdirAll fs (filepathDir (filepathJoin folder (effectiveName rel fname))))
                (filepathJoin folder (effectiveName rel fname)) [])
              (filepathJoin folder (effectiveName rel fname)) c)
        else none
      else cleanRunSpec folder rel o rest fs

/-- Pointwise characterisation of the sniff predicate: a byte is flagged iff
it is zero, or a control byte below 0x20 outside 0x09 through 0x0D. -/
theorem isBinaryByte_iff (b : Nat) :
    isBinaryByte b = true ↔ (b = 0 ∨ (b < 32 ∧ ¬ (9 ≤ b ∧ b ≤ 13))) := by
  simp only [isBinaryByte, Bool.or_eq_true, Bool.and_eq_true, beq_iff_eq,
    decide_eq_true_eq]
  omega

/-- C1: a stat size strictly over 50 MiB short-circuits to the fixed oversize
error without the body influencing the response; at 50 MiB − 1 the request
proceeds through normal content classification; at 50 MiB + 1 it is the
oversize error. -/
theorem c1_oversize_guard (path : String) (size : Nat) (d d2 : List Nat)
    (hp : path ≠ "") :
    (size > 50 * 1024 * 1024 →
        handleFileView path size d = ViewResult.errorView oversizeMessage
        ∧ handleFileView path size d = handleFileView path size d2)
    ∧ handleFileView path (50 * 1024 * 1024 - 1) d
        = classifyContent path (50 * 1024 * 1024 - 1) d
    ∧ handleFileView path (50 * 1024 * 1024 + 1) d
        = ViewResult.errorView oversizeMessage := by
  refine ⟨fun h => ?_, ?_, ?_⟩
  · constructor <;> simp [handleFileView, hp, h]
  · have h2 : ¬ (50 * 1024 * 1024 - 1 > 50 * 1024 * 1024) := by omega
    simp [handleFileView, hp, h2]
  · have h3 : 50 * 1024 * 1024 + 1 > 50 * 1024 * 1024 := by omega
    simp [handleFileView, hp, h3]

/-- Witness for C1 at a concrete oversized request. -/
theorem c1_witness :
    handleFileView "big.bin" 52428801 [] = ViewResult.errorView oversizeMessage
    ∧ handleFileView "big.bin" 52428801 []
        = handleFileView "big.bin" 52428801 [1] := by
  have h := c1_oversize_guard "big.bin" 52428801 [] [1] (by decide)
  exact h.1 (by omega)

/-- C7 root case: an empty, ".", or "/" tree path lists exactly the configured
roots, in order, as folder entries named by their final segment with their
absolute forward-slash path. -/
theorem c7_root_listing (cwd : String) (fl : List String)
    (rd : String → Except String (List (String × Bool))) (p : String)
    (h : p = "" ∨ p = "." ∨ p = "/") :
    handleTree cwd fl rd p =
      Except.ok (fl.map (fun f =>
        { name := filepathBase f, type := "folder", path := filepathAbs cwd f })) := by
  rcases h with h | h | h <;> simp [handleTree, h]

/-- Witness for C7 on the scenario from the spec: roots /data/a and /data/b. -/
theorem c7_witness :
    handleTree "/" ["/data/a", "/data/b"] (fun _ => Except.error "e") "" =
      Except.ok [{ name := "a", type := "folder", path := "/data/a" },
                 { name := "b", type := "folder", path := "/data/b" }] := by
  have h := c7_root_listing "/" ["/data/a", "/data/b"]
    (fun _ => Except.error "e") "" (Or.inl rfl)
  exact h.trans (congrArg Except.ok (by decide))

/-- C8: a download request with a path sets the attachment disposition built
from the basename and the table-derived content type with the octet-stream
default. -/
theorem c8_attachment (path : String) (hp : path ≠ "") :
    handleDownload path =
      DownloadResult.serve ("attachment; filename=" ++ filepathBase path)
        (if mimeTypeByExtension (filepathExt (filepathBase path)) = ""
          then "application/octet-stream"
          else mimeTypeByExtension (filepathExt (filepathBase path)))
        path := by
  simp [handleDownload, hp]

/-- Witness for C8 on scenario 5 from the spec. -/
theorem c8_witness :
    handleDownload "/data/a/report.pdf" =
      DownloadResult.serve "attachment; filename=report.pdf" "application/pdf"
        "/data/a/report.pdf" := by
  have h := c8_attachment "/data/a/report.pdf" (by decide)
  exact h.trans (by decide)

/-- C4 counterexample: the upload endpoint answers a missing folder parameter
with HTTP status 200 (a JSON body), not a 400-class status. -/
theorem c4_counterexample :
    (handleUpload "" "" noErrOracle (some []) fsEmpty).1.status = 200
    ∧ ¬ (400 ≤ (handleUpload "" "" noErrOracle (some []) fsEmpty).1.status
          ∧ (handleUpload "" "" noErrOracle (some []) fsEmpty).1.status < 500) := by
  decide

/-- C4 amended: file-view, raw and download answer a missing path with HTTP
400 and a message naming the parameter, while upload answers a missing folder
with HTTP 200 and a JSON body success=false whose error names the parameter. -/
theorem c4_amended_missing_param (size : Nat) (data : List Nat) (rel : String)
    (o : FsOracle) (stream : Option (List PartEvent)) (fs : FS) :
    handleFileView "" size data = ViewResult.httpError 400 "Missing path"
    ∧ handleRawFile "" = RawResult.httpError 400 "Missing path"
    ∧ handleDownload "" = DownloadResult.httpError 400 "Missing path"
    ∧ handleUpload "" rel o stream fs
        = ({ status := 200, success := false, error := some "Missing folder param" }, fs) := by
  exact ⟨rfl, rfl, rfl, rfl⟩

/-- C2 counterexample: a file whose first byte is 0x00 but whose extension is
.pdf classifies as kind pdf, not binary — the extension dispatch for pdf runs
before the sniff outcome is consulted. -/
theorem c2_counterexample :
    viewType (handleFileView "a.pdf" 1 [0]) = "pdf"
    ∧ viewType (handleFileView "a.pdf" 1 [0]) ≠ "binary" := by
  decide

/-- C2 amended: the sniff flags a file iff one of its first 800 bytes is zero
or a control byte below 0x20 outside 0x09 through 0x0D; a file whose first
byte is zero classifies as kind binary whenever its lowercased extension is
not .pdf, .md or .markdown and does not map to an image MIME type (for those
extensions the pdf/markdown/image dispatch takes precedence); and a file none
of whose first 800 bytes trips the sniff never classifies as binary or image,
whatever its extension. -/
theorem c2_amended_sniff (path : String) (size : Nat) (data : List Nat) :
    ((data.take 800).any isBinaryByte = true ↔
        ∃ b ∈ data.take 800, b = 0 ∨ (b < 32 ∧ ¬ (9 ≤ b ∧ b ≤ 13)))
    ∧ (∀ rest : List Nat,
        lowerString (filepathExt path) ≠ ".pdf" →
        lowerString (filepathExt path) ≠ ".md" →
        lowerString (filepathExt path) ≠ ".markdown" →
        startsWithImage (mimeTypeByExtension (lowerString (filepathExt path))) = false →
        viewType (classifyContent path size (0 :: rest)) = "binary")
    ∧ ((∀ b ∈ data.take 800, ¬ (b = 0 ∨ (b < 32 ∧ ¬ (9 ≤ b ∧ b ≤ 13)))) →
        viewType (classifyContent path size data) ≠ "binary"
        ∧ viewType (classifyContent path size data) ≠ "image") := by
  refine ⟨?_, ?_, ?_⟩
  · simp [List.any_eq_true, isBinaryByte_iff]
  · intro rest h1 h2 h3 h4
    simp [classifyContent, h1, h2, h3, h4, isBinaryByte, viewType]
  · intro hb
    have hsniff : (data.take 800).any isBinaryByte = false := by
      rw [← Bool.not_eq_true, List.any_eq_true]
      push_neg
      intro b hbmem
      simp only [ne_eq, isBinaryByte_iff]
      exact hb b hbmem
    by_cases hpdf : lowerString (filepathExt path) = ".pdf"
    · simp [classifyContent, hpdf, viewType]
    · by_cases hmd : lowerString (filepathExt path) = ".md"
          ∨ lowerString (filepathExt path) = ".markdown"
      · simp [classifyContent, hpdf, hmd, viewType]
      · simp [classifyContent, hpdf, hmd, hsniff, viewType]

/-- Witness for C2 amended: a NUL-headed unknown-extension file is kind
binary; a printable-ASCII file with the same unknown extension is not. -/
theorem c2_witness :
    viewType (classifyContent "data.xyz" 3 [0]) = "binary"
    ∧ viewType (classifyContent "data.xyz" 3 [72, 105, 33]) ≠ "binary" := by
  have h := c2_amended_sniff "data.xyz" 3 [72, 105, 33]
  exact ⟨h.2.1 [] (by decide) (by decide) (by decide) (by decide),
    (h.2.2 (by decide)).1⟩

/-- C10: content classification lowercases the extension before dispatch, so
two paths whose lowercased extensions agree receive the same view kind and
the same language hint. -/
theorem c10_case_insensitive (p1 p2 : String) (size : Nat) (data : List Nat)
    (h : lowerString (filepathExt p1) = lowerString (filepathExt p2)) :
    viewType (classifyContent p1 size data) = viewType (classifyContent p2 size data)
    ∧ viewLanguage (classifyContent p1 size data)
        = viewLanguage (classifyContent p2 size data) := by
  simp only [classifyContent]
  rw [h]
  by_cases hpdf : lowerString (filepathExt p2) = ".pdf"
  · simp [hpdf, viewType, viewLanguage]
  · simp [hpdf]

/-- Witness for C10: .GO and .go classify identically, with language go. -/
theorem c10_witness :
    viewType (classifyContent "a.GO" 4 [102, 117, 110, 99])
      = viewType (classifyContent "a.go" 4 [102, 117, 110, 99])
    ∧ viewLanguage (classifyContent "a.GO" 4 [102, 117, 110, 99]) = some "go" := by
  have h := c10_case_insensitive "a.GO" "a.go" 4 [102, 117, 110, 99] (by decide)
  exact ⟨h.1, by decide⟩

/-- The sniff never fires on a replicated clean byte. -/
theorem any_replicate_isBinaryByte (n b : Nat) (h : isBinaryByte b = false) :
    (List.replicate n b).any isBinaryByte = false := by
  induction n with
  | zero => rfl
  | succ k ih => simp [List.replicate_succ, h, ih]

/-- C3: a file that classifies as text is returned as at most the first 1 MiB
of its bytes; at a stat size of exactly 1 MiB or below the full content comes
back with no marker, and above 1 MiB the first 1 MiB comes back with the fixed
truncation notice appended. -/
theorem c3_text_read_limit (path : String) (data : List Nat)
    (hp : path ≠ "")
    (hpdf : lowerString (filepathExt path) ≠ ".pdf")
    (hmd : lowerString (filepathExt path) ≠ ".md")
    (hmarkdown : lowerString (filepathExt path) ≠ ".markdown")
    (hbin : (data.take 800).any isBinaryByte = false)
    (hsize : data.length ≤ 50 * 1024 * 1024) :
    (data.length ≤ 1024 * 1024 →
        handleFileView path data.length data
          = ViewResult.textView data (extToLang (lowerString (filepathExt path))))
    ∧ (data.length > 1024 * 1024 →
        handleFileView path data.length data
          = ViewResult.textView (data.take (1024 * 1024) ++ truncBytes)
              (extToLang (lowerString (filepathExt path)))) := by
  have hover : ¬ (data.length > 50 * 1024 * 1024) := by omega
  constructor
  · intro hle
    have hnotr : ¬ (data.length > 1024 * 1024) := by omega
    simp [handleFileView, hp, hover, classifyContent, hpdf, hmd, hmarkdown, hbin,
      hnotr, List.take_of_length_le hle]
  · intro hgt
    simp [handleFileView, hp, hover, classifyContent, hpdf, hmd, hmarkdown, hbin, hgt]

/-- Witness for C3: a 2-byte text file comes back whole, and a text file of
1 MiB + 1 bytes comes back as its first 1 MiB plus the truncation notice. -/
theorem c3_witness :
    handleFileView "a.txt" 2 [104, 105]
      = ViewResult.textView [104, 105] (extToLang (lowerString (filepathExt "a.txt")))
    ∧ handleFileView "b.txt" (List.replicate 1048577 104).length (List.replicate 1048577 104)
      = ViewResult.textView ((List.replicate 1048577 104).take (1024 * 1024) ++ truncBytes)
          (extToLang (lowerString (filepathExt "b.txt"))) := by
  have h1 := c3_text_read_limit "a.txt" [104, 105] (by decide) (by decide)
    (by decide) (by decide) (by decide) (by decide)
  have h2 := c3_text_read_limit "b.txt" (List.replicate 1048577 104) (by decide)
    (by decide) (by decide) (by decide)
    (by rw [List.take_replicate]
        exact any_replicate_isBinaryByte _ _ (by decide))
    (by rw [List.length_replicate]; norm_num)
  exact ⟨h1.1 (by decide), h2.2 (by rw [List.length_replicate]; norm_num)⟩

/-- Reading back the path just written. -/
theorem fsRead_fsWrite_self (fs : FS) (p : String) (c : List Nat) :
    fsRead (fsWrite fs p c) p = some c := by
  simp [fsRead, fsWrite, List.lookup]

/-- Writes do not disturb other paths. -/
theorem fsRead_fsWrite_other (fs : FS) (p q : String) (c : List Nat) (h : p ≠ q) :
    fsRead (fsWrite fs q c) p = fsRead fs p := by
  have hq : (p == q) = false := beq_eq_false_iff_ne.mpr h
  simp [fsRead, fsWrite, List.lookup, hq]

/-- mkdirAll touches directories only, never file contents. -/
theorem fsRead_mkdirAll (fs : FS) (d p : String) :
    fsRead (mkdirAll fs d) p = fsRead fs p := rfl

/-- A write never removes an existing file from the state. -/
theorem fsRead_isSome_fsWrite (fs : FS) (p q : String) (c : List Nat)
    (h : (fsRead fs p).isSome = true) :
    (fsRead (fsWrite fs q c) p).isSome = true := by
  by_cases hpq : p = q
  · subst hpq; simp [fsRead_fsWrite_self]
  · rw [fsRead_fsWrite_other fs p q c hpq]; exact h

/-- Characterisation of the upload part loop against its failure-free runs:
a clean run ends with success=true and the accumulated filesystem; a failing
run answers success=false with an error message, is unchanged by any events
after the failure, and the loop never removes a file present in the state. -/
theorem processParts_outcome (folder rel : String) (o : FsOracle) :
    ∀ (evs : List PartEvent) (fs : FS),
      (∀ fs2, cleanRunSpec folder rel o evs fs = some fs2 →
          processParts folder rel o evs fs
            = ({ status := 200, success := true, error := none }, fs2))
      ∧ (cleanRunSpec folder rel o evs fs = none →
          (processParts folder rel o evs fs).1.success = false
          ∧ (processParts folder rel o evs fs).1.error ≠ none
          ∧ ∀ rest2, processParts folder rel o (evs ++ rest2) fs
              = processParts folder rel o evs fs)
      ∧ (∀ p, (fsRead fs p).isSome = true →
          (fsRead (processParts folder rel o evs fs).2 p).isSome = true) := by
  intro evs
  induction evs with
  | nil =>
    intro fs
    refine ⟨?_, ?_, ?_⟩
    · intro fs2 h
      simp only [cleanRunSpec, Option.some.injEq] at h
      subst h
      rfl
    · intro h
      simp [cleanRunSpec] at h
    · intro p hp
      simpa [processParts] using hp
  | cons ev rest ih =>
    intro fs
    cases ev with
    | streamError m =>
      refine ⟨?_, ?_, ?_⟩
      · intro fs2 h
        simp [cleanRunSpec] at h
      · intro _
        exact ⟨rfl, by simp [processParts], fun rest2 => rfl⟩
      · intro p hp
        simpa [processParts] using hp
    | filePart fn fname c =>
      by_cases hc : fn = "files" ∧ fname ≠ ""
      · obtain ⟨hfn, hfname⟩ := hc
        subst hfn
        cases hmk : o.mkdirErr (filepathDir (filepathJoin folder (effectiveName rel fname))) with
        | some e =>
          refine ⟨?_, ?_, ?_⟩
          · intro fs2 h
            simp [cleanRunSpec, hfname, hmk] at h
          · intro _
            refine ⟨?_, ?_, ?_⟩
            · simp [processParts, hfname, hmk]
            · simp [processParts, hfname, hmk]
            · intro rest2
              simp [processParts, hfname, hmk]
          · intro p hp
            simpa [processParts, hfname, hmk] using hp
        | none =>
          cases hcr : o.createErr (filepathJoin folder (effectiveName rel fname)) with
          | some e =>
            refine ⟨?_, ?_, ?_⟩
            · intro fs2 h
              simp [cleanRunSpec, hfname, hmk, hcr] at h
            · intro _
              refine ⟨?_, ?_, ?_⟩
              · simp [processParts, hfname, hmk, hcr]
              · simp [processParts, hfname, hmk, hcr]
              · intro rest2
                simp [processParts, hfname, hmk, hcr]
            · intro p hp
              simpa [processParts, hfname, hmk, hcr, fsRead_mkdirAll] using hp
          | none =>
            cases hcp : o.copyErr (filepathJoin folder (effectiveName rel fname)) with
            | some e =>
              refine ⟨?_, ?_, ?_⟩
              · intro fs2 h
                simp [cleanRunSpec, hfname, hmk, hcr, hcp] at h
              · intro _
                refine ⟨?_, ?_, ?_⟩
                · simp [processParts, hfname, hmk, hcr, hcp]
                · simp [processParts, hfname, hmk, hcr, hcp]
                · intro rest2
                  simp [processParts, hfname, hmk, hcr, hcp]
              · intro p hp
                simpa [processParts, hfname, hmk, hcr, hcp] using
                  fsRead_isSome_fsWrite _ p _ [] hp
            | none =>
              have hstep := ih (fsWrite (fsWrite (mkdirAll fs
                (filepathDir (filepathJoin folder (effectiveName rel fname))))
                (filepathJoin folder (effectiveName rel fname)) [])
                (filepathJoin folder (effectiveName rel fname)) c)
              refine ⟨?_, ?_, ?_⟩
              · intro fs2 h
                simp [cleanRunSpec, hfname, hmk, hcr, hcp] at h
                simpa [processParts, hfname, hmk, hcr, hcp] using hstep.1 fs2 h
              · intro h
                simp [cleanRunSpec, hfname, hmk, hcr, hcp] at h
                refine ⟨?_, ?_, ?_⟩
                · simpa [processParts, hfname, hmk, hcr, hcp] using (hstep.2.1 h).1
                · simpa [processParts, hfname, hmk, hcr, hcp] using (hstep.2.1 h).2.1
                · intro rest2
                  have happ := (hstep.2.1 h).2.2 rest2
                  simpa [processParts, hfname, hmk, hcr, hcp] using happ
              · intro p hp
                simpa [processParts, hfname, hmk, hcr, hcp] using
                  hstep.2.2 p (fsRead_isSome_fsWrite _ p _ c
                    (fsRead_isSome_fsWrite _ p _ [] hp))
      · refine ⟨?_, ?_, ?_⟩
        · intro fs2 h
          simp only [cleanRunSpec, if_neg hc] at h
          simpa [processParts, if_neg hc] using (ih fs).1 fs2 h
        · intro h
          simp only [cleanRunSpec, if_neg hc] at h
          refine ⟨?_, ?_, ?_⟩
          · simpa [processParts, if_neg hc] using ((ih fs).2.1 h).1
          · simpa [processParts, if_neg hc] using ((ih fs).2.1 h).2.1
          · intro rest2
            have happ := ((ih fs).2.1 h).2.2 rest2
            simpa [processParts, if_neg hc] using happ
        · intro p hp
          simpa [processParts, if_neg hc] using (ih fs).2.2 p hp

/-- C5: an upload request aborts at its first failure — stream, directory
creation, create, or copy error — reporting success=false with that error
message, ignoring every event after the failure and keeping every file already
in the filesystem; reaching the end of the stream with no failure reports
success=true. -/
theorem c5_upload_first_failure (folder rel : String) (o : FsOracle)
    (evs : List PartEvent) (fs : FS) (hfolder : folder ≠ "") :
    (∀ fs2, cleanRunSpec folder rel o evs fs = some fs2 →
        handleUpload folder rel o (some evs) fs
          = ({ status := 200, success := true, error := none }, fs2))
    ∧ (cleanRunSpec folder rel o evs fs = none →
        (handleUpload folder rel o (some evs) fs).1.success = false
        ∧ (handleUpload folder rel o (some evs) fs).1.error ≠ none
        ∧ ∀ rest2, handleUpload folder rel o (some (evs ++ rest2)) fs
            = handleUpload folder rel o (some evs) fs)
    ∧ (∀ p, (fsRead fs p).isSome = true →
        (fsRead (handleUpload folder rel o (some evs) fs).2 p).isSome = true) := by
  have h := processParts_outcome folder rel o evs fs
  simpa [handleUpload, hfolder] using h

/-- Witness for C5: a stream error on the first part makes the remaining part
irrelevant and the request unsuccessful. -/
theorem c5_witness :
    handleUpload "/d" "" noErrOracle
        (some [PartEvent.streamError "boom", PartEvent.filePart "files" "x.txt" [1]]) fsEmpty
      = handleUpload "/d" "" noErrOracle (some [PartEvent.streamError "boom"]) fsEmpty
    ∧ (handleUpload "/d" "" noErrOracle
        (some [PartEvent.streamError "boom"]) fsEmpty).1.success = false := by
  have h := c5_upload_first_failure "/d" "" noErrOracle
    [PartEvent.streamError "boom"] fsEmpty (by decide)
  have hn : cleanRunSpec "/d" "" noErrOracle [PartEvent.streamError "boom"] fsEmpty = none := rfl
  exact ⟨(h.2.1 hn).2.2 [PartEvent.filePart "files" "x.txt" [1]], (h.2.1 hn).1⟩

/-- C6: with a nonempty relativePath hint, a file part is written to the
destination folder joined with the hint — whatever filename the part declared
— and every intermediate directory of that path is in the created set. -/
theorem c6_relative_path_upload (folder rel n : String) (c : List Nat)
    (o : FsOracle) (fs : FS) (hfolder : folder ≠ "") (hrel : rel ≠ "") (hn : n ≠ "")
    (hmk : o.mkdirErr (filepathDir (filepathJoin folder rel)) = none)
    (hcr : o.createErr (filepathJoin folder rel) = none)
    (hcp : o.copyErr (filepathJoin folder rel) = none) :
    (handleUpload folder rel o (some [PartEvent.filePart "files" n c]) fs).1
      = { status := 200, success := true, error := none }
    ∧ fsRead (handleUpload folder rel o (some [PartEvent.filePart "files" n c]) fs).2
        (filepathJoin folder rel) = some c
    ∧ ∀ d ∈ dirChain (filepathDir (filepathJoin folder rel)),
        d ∈ (handleUpload folder rel o (some [PartEvent.filePart "files" n c]) fs).2.dirs := by
  have e1 : handleUpload folder rel o (some [PartEvent.filePart "files" n c]) fs
      = ({ status := 200, success := true, error := none },
         fsWrite (fsWrite (mkdirAll fs (filepathDir (filepathJoin folder rel)))
           (filepathJoin folder rel) []) (filepathJoin folder rel) c) := by
    simp [handleUpload, hfolder, processParts, effectiveName, hrel, hn, hmk, hcr, hcp]
  rw [e1]
  refine ⟨rfl, fsRead_fsWrite_self _ _ _, ?_⟩
  intro d hd
  simp only [fsWrite, mkdirAll, List.mem_append]
  exact Or.inl hd

/-- Witness for C6 on scenario 4 from the spec: relativePath sub/dir/x.txt under
folder /data/a lands at /data/a/sub/dir/x.txt with both intermediate
directories created, ignoring the declared filename orig.txt. -/
theorem c6_witness :
    fsRead (handleUpload "/data/a" "sub/dir/x.txt" noErrOracle
        (some [PartEvent.filePart "files" "orig.txt" [7]]) fsEmpty).2
        (filepathJoin "/data/a" "sub/dir/x.txt") = some [7]
    ∧ filepathJoin "/data/a" "sub/dir/x.txt" = "/data/a/sub/dir/x.txt"
    ∧ "/data/a/sub" ∈ (handleUpload "/data/a" "sub/dir/x.txt" noErrOracle
        (some [PartEvent.filePart "files" "orig.txt" [7]]) fsEmpty).2.dirs
    ∧ "/data/a/sub/dir" ∈ (handleUpload "/data/a" "sub/dir/x.txt" noErrOracle
        (some [PartEvent.filePart "files" "orig.txt" [7]]) fsEmpty).2.dirs := by
  have h := c6_relative_path_upload "/data/a" "sub/dir/x.txt" "orig.txt" [7]
    noErrOracle fsEmpty (by decide) (by decide) (by decide) rfl rfl rfl
  exact ⟨h.2.1, by decide, h.2.2 "/data/a/sub" (by decide),
    h.2.2 "/data/a/sub/dir" (by decide)⟩

/-- C9: when a relativePath hint accompanies a request with two file parts,
both parts are written to the same joined destination path, which finally
holds the bytes of the second part, every other path is untouched, and the
request still reports success. -/
theorem c9_relative_path_last_wins (folder rel n1 n2 : String) (c1 c2 : List Nat)
    (o : FsOracle) (fs : FS) (hfolder : folder ≠ "") (hrel : rel ≠ "")
    (h1 : n1 ≠ "") (h2 : n2 ≠ "")
    (hmk : o.mkdirErr (filepathDir (filepathJoin folder rel)) = none)
    (hcr : o.createErr (filepathJoin folder rel) = none)
    (hcp : o.copyErr (filepathJoin folder rel) = none) :
    (handleUpload folder rel o (some [PartEvent.filePart "files" n1 c1,
        PartEvent.filePart "files" n2 c2]) fs).1
      = { status := 200, success := true, error := none }
    ∧ fsRead (handleUpload folder rel o (some [PartEvent.filePart "files" n1 c1,
        PartEvent.filePart "files" n2 c2]) fs).2 (filepathJoin folder rel) = some c2
    ∧ ∀ p, p ≠ filepathJoin folder rel →
        fsRead (handleUpload folder rel o (some [PartEvent.filePart "files" n1 c1,
          PartEvent.filePart "files" n2 c2]) fs).2 p = fsRead fs p := by
  have e1 : handleUpload folder rel o (some [PartEvent.filePart "files" n1 c1,
      PartEvent.filePart "files" n2 c2]) fs
      = ({ status := 200, success := true, error := none },
         fsWrite (fsWrite (mkdirAll
           (fsWrite (fsWrite (mkdirAll fs (filepathDir (filepathJoin folder rel)))
             (filepathJoin folder rel) []) (filepathJoin folder rel) c1)
           (filepathDir (filepathJoin folder rel)))
           (filepathJoin folder rel) []) (filepathJoin folder rel) c2) := by
    simp [handleUpload, hfolder, processParts, effectiveName, hrel, h1, h2, hmk, hcr, hcp]
  rw [e1]
  refine ⟨rfl, fsRead_fsWrite_self _ _ _, ?_⟩
  intro p hp
  rw [fsRead_fsWrite_other _ _ _ _ hp, fsRead_fsWrite_other _ _ _ _ hp,
    fsRead_mkdirAll, fsRead_fsWrite_other _ _ _ _ hp,
    fsRead_fsWrite_other _ _ _ _ hp, fsRead_mkdirAll]

/-- Witness for C9: two parts with distinct names and bytes, one hint; the
destination holds the bytes of the second part. -/
theorem c9_witness :
    (handleUpload "/data/a" "x.txt" noErrOracle
        (some [PartEvent.filePart "files" "f1" [1], PartEvent.filePart "files" "f2" [2]])
        fsEmpty).1
      = { status := 200, success := true, error := none }
    ∧ fsRead (handleUpload "/data/a" "x.txt" noErrOracle
        (some [PartEvent.filePart "files" "f1" [1], PartEvent.filePart "files" "f2" [2]])
        fsEmpty).2 (filepathJoin "/data/a" "x.txt") = some [2] := by
  have h := c9_relative_path_last_wins "/data/a" "x.txt" "f1" "f2" [1] [2]
    noErrOracle fsEmpty (by decide) (by decide) (by decide) (by decide) rfl rfl rfl
  exact ⟨h.1, h.2.1⟩
